import Mathlib

/-!
Verification of the `lights` Snapcast client.

This file gives a shallow embedding of the parts of the repository that the
claims address:

* `src/protocol.rs` — the Snapcast wire codec (`SnapCodec::encode` /
  `SnapCodec::decode`) over the message types `SnapMessage`, `SnapBase`,
  `SnapKind`;
* `src/controller/music/snap/client.rs` — the client message processor
  (`SnapClient::process_message`), the channel downmix, the delay-queue
  scheduling and the stale-frame check in `SnapClient::next`;
* `src/controller/music/mod.rs` — the gravity smoothing of
  `MusicController::process_frame` and the connection retry loop of `run`.

Modelling conventions.  Byte buffers are `List ℕ` whose elements are meant to
be `< 256`; machine integer arithmetic is made explicit (`% 2 ^ 32`,
two's-complement decoding, `Int.tdiv`/`Int.tmod` for Rust's
truncating-toward-zero `/` and `%`).  `time::Duration` values are modelled as
whole nanosecond counts (`ℤ`), matching the crate's seconds + nanoseconds
representation; `whole_seconds` and `subsec_microseconds` become
`Int.tdiv`/`Int.tmod` with the crate's truncation-toward-zero semantics.
External collaborators that the repository only calls (serde_json, claxon's
FLAC decoder, UTF-8 validation) are abstracted as explicit function
parameters, collected in `Ext` and `ClientExt`; theorems that depend on their
behaviour carry the corresponding round-trip hypotheses.  Floating point
`f64` computations on times (the stale-frame length check) are modelled over
`ℚ`, and the gravity filter over `ℚ` with the `sqrt` function abstracted as a
parameter (it is only applied at points where its exact value is either
irrelevant or exactly representable).
-/

namespace Lights

/-! ## Little-endian byte serialization (bytes crate primitives) -/

/-- Little-endian 2-byte encoding, as produced by `put_u16_le`. -/
def u16le (x : ℕ) : List ℕ := [x % 256, x / 256 % 256]

/-- Little-endian 4-byte encoding, as produced by `put_u32_le`. -/
def u32le (x : ℕ) : List ℕ :=
  [x % 256, x / 256 % 256, x / 65536 % 256, x / 16777216 % 256]

/-- Little-endian 4-byte two's-complement encoding, as produced by
`put_i32_le`. -/
def i32le (v : ℤ) : List ℕ := u32le ((v % 4294967296).toNat)

/-- Value of two little-endian bytes. -/
def u16of (a b : ℕ) : ℕ := a + 256 * b

/-- Value of four little-endian bytes. -/
def u32of (a b c d : ℕ) : ℕ := a + 256 * b + 65536 * c + 16777216 * d

/-- Two's-complement reading of four little-endian bytes, as done by
`get_i32_le`. -/
def i32of (a b c d : ℕ) : ℤ :=
  let u := u32of a b c d
  if u < 2147483648 then (u : ℤ) else (u : ℤ) - 4294967296

/-- Read a `u16` at the head of a buffer (`get_u16_le` through the header
cursor; the default 0 is never exercised because `decode` guards the
length first). -/
def readU16 (l : List ℕ) : ℕ := u16of (l.getD 0 0) (l.getD 1 0)

/-- Read a `u32` at the head of a buffer (`get_u32_le` through the header
cursor). -/
def readU32 (l : List ℕ) : ℕ := u32of (l.getD 0 0) (l.getD 1 0) (l.getD 2 0) (l.getD 3 0)

/-- Read an `i32` at the head of a buffer (`get_i32_le` through the header
cursor). -/
def readI32 (l : List ℕ) : ℤ := i32of (l.getD 0 0) (l.getD 1 0) (l.getD 2 0) (l.getD 3 0)

/-- Consuming `get_u32_le` on a body buffer: `none` models the bytes-crate
panic when fewer than 4 bytes remain. -/
def getU32 : List ℕ → Option (ℕ × List ℕ)
  | a :: b :: c :: d :: l => some (u32of a b c d, l)
  | _ => none

/-- Consuming `get_i32_le` on a body buffer: `none` models the bytes-crate
panic when fewer than 4 bytes remain. -/
def getI32 : List ℕ → Option (ℤ × List ℕ)
  | a :: b :: c :: d :: l => some (i32of a b c d, l)
  | _ => none

/-- `split_to n` on a body buffer: `none` models the bytes-crate panic when
`n` exceeds the remaining length. -/
def splitTo (n : ℕ) (l : List ℕ) : Option (List ℕ × List ℕ) :=
  if n ≤ l.length then some (l.take n, l.drop n) else none

/-! ## Durations

`time::Duration` is a signed seconds + nanoseconds pair; we model it as a
single signed nanosecond count.  `whole_seconds` and `subsec_microseconds`
truncate toward zero, which is `Int.tdiv` / `Int.tmod`. -/

/-- `Duration::whole_seconds` on a nanosecond count. -/
def wholeSeconds (d : ℤ) : ℤ := Int.tdiv d 1000000000

/-- `Duration::subsec_microseconds` on a nanosecond count. -/
def subsecMicros (d : ℤ) : ℤ := Int.tdiv (Int.tmod d 1000000000) 1000

/-! ## Protocol data model (`src/protocol.rs`) -/

/-- `SnapBase`: the message envelope fields.  `id` and `refersTo` are `u16`
(the bound is part of `WellFormed`); `received` and `sent` are durations in
nanoseconds. -/
structure SnapBase where
  id : ℕ
  refersTo : ℕ
  received : ℤ
  sent : ℤ
deriving DecidableEq, Repr

/-- `SnapServerSettings` (the JSON body of a ServerSettings message).
`bufferMs` and `latency` are durations in nanoseconds. -/
structure SnapServerSettings where
  bufferMs : ℤ
  latency : ℤ
  muted : Bool
  volume : ℕ
deriving DecidableEq, Repr

/-- `SnapHello` (the JSON body of a Hello message). -/
structure SnapHello where
  arch : String
  clientName : String
  hostName : String
  id : String
  inst : ℕ
  mac : String
  os : String
  protocolVersion : ℕ
  version : String
deriving DecidableEq, Repr

/-- `SnapKind`: the six message bodies.  The codec name of a CodecHeader is
kept as its UTF-8 byte sequence. -/
inductive SnapKind where
  | codecHeader (codec : List ℕ) (payload : List ℕ)
  | wireChunk (timestamp : ℤ) (payload : List ℕ)
  | serverSettings (settings : SnapServerSettings)
  | time (delta : ℤ)
  | hello (payload : SnapHello)
  | streamTags (tags : List (String × String))
deriving DecidableEq, Repr

/-- `SnapMessage`: envelope plus body. -/
structure SnapMessage where
  base : SnapBase
  kind : SnapKind
deriving DecidableEq, Repr

/-- `SnapKind::id`. -/
def kindId : SnapKind → ℕ
  | .codecHeader _ _ => 1
  | .wireChunk _ _ => 2
  | .serverSettings _ => 3
  | .time _ => 4
  | .hello _ => 5
  | .streamTags _ => 6

/-- External collaborators of the codec: UTF-8 validation and the
serde_json serializers for the three JSON bodies.  They are parameters of
the embedding; round-trip facts about them are hypotheses of the theorems
that need them. -/
structure Ext where
  utf8Ok : List ℕ → Bool
  settingsToJson : SnapServerSettings → List ℕ
  settingsFromJson : List ℕ → Option SnapServerSettings
  helloToJson : SnapHello → List ℕ
  helloFromJson : List ℕ → Option SnapHello
  tagsToJson : List (String × String) → List ℕ
  tagsFromJson : List ℕ → Option (List (String × String))

/-- `SnapKind::size`: the body length in bytes. -/
def kindSize (e : Ext) : SnapKind → ℕ
  | .codecHeader c p => 4 + c.length + 4 + p.length
  | .wireChunk _ p => 8 + 4 + p.length
  | .serverSettings s => 4 + (e.settingsToJson s).length
  | .time _ => 8
  | .hello h => 4 + (e.helloToJson h).length
  | .streamTags t => 4 + (e.tagsToJson t).length

/-- Body bytes written by `SnapCodec::encode` for each kind. -/
def bodyBytes (e : Ext) : SnapKind → List ℕ
  | .codecHeader c p => u32le c.length ++ c ++ u32le p.length ++ p
  | .wireChunk ts p =>
      i32le (wholeSeconds ts) ++ i32le (subsecMicros ts) ++ u32le p.length ++ p
  | .serverSettings s =>
      u32le (e.settingsToJson s).length ++ e.settingsToJson s
  | .time d => i32le (wholeSeconds d) ++ i32le (subsecMicros d)
  | .hello h => u32le (e.helloToJson h).length ++ e.helloToJson h
  | .streamTags t => u32le (e.tagsToJson t).length ++ e.tagsToJson t

/-- Success of the `i64 → i32` conversions (`try_into`) in `encode`. -/
def i32ok (v : ℤ) : Bool := decide (-2147483648 ≤ v ∧ v < 2147483648)

/-- Success of the `usize → u32` conversions (`try_into`) in `encode`. -/
def u32ok (n : ℕ) : Bool := decide (n < 4294967296)

/-- The fallible conversions performed while encoding a given body. -/
def kindGuard (e : Ext) : SnapKind → Bool
  | .codecHeader c p => u32ok c.length && u32ok p.length
  | .wireChunk ts _ => i32ok (wholeSeconds ts) && i32ok (subsecMicros ts)
  | .serverSettings s => u32ok (e.settingsToJson s).length
  | .time d => i32ok (wholeSeconds d) && i32ok (subsecMicros d)
  | .hello h => u32ok (e.helloToJson h).length
  | .streamTags t => u32ok (e.tagsToJson t).length

/-- `SnapCodec::encode`: envelope (type tag, id, refers_to, received as
seconds/microseconds, sent as seconds/microseconds, body size) followed by
the body.  `none` models an `Err` from one of the `try_into?` conversions. -/
def encode (e : Ext) (m : SnapMessage) : Option (List ℕ) :=
  if i32ok (wholeSeconds m.base.received) && i32ok (subsecMicros m.base.received) &&
     i32ok (wholeSeconds m.base.sent) && i32ok (subsecMicros m.base.sent) &&
     kindGuard e m.kind then
    some (u16le (kindId m.kind) ++ u16le m.base.id ++ u16le m.base.refersTo ++
      i32le (wholeSeconds m.base.received) ++ i32le (subsecMicros m.base.received) ++
      i32le (wholeSeconds m.base.sent) ++ i32le (subsecMicros m.base.sent) ++
      u32le (kindSize e m.kind) ++ bodyBytes e m.kind)
  else none

/-- Outcome of one `SnapCodec::decode` call.  `needMore` is `Ok(None)`,
`ok` is `Ok(Some(_))`, `err` is `Err(_)` (unknown tag, bad UTF-8, JSON
failure), and `outOfBounds` models a panic of `split_to`/`get_u32_le`/
`get_i32_le` when a body-internal length exceeds the remaining bytes. -/
inductive DecodeResult where
  | needMore
  | ok (m : SnapMessage)
  | err
  | outOfBounds
deriving DecidableEq, Repr

/-- Body parsing of `SnapCodec::decode`, after the envelope was consumed and
exactly the announced body was split off. -/
def parseBody (e : Ext) (base : SnapBase) (msgType : ℕ) (data : List ℕ) : DecodeResult :=
  match msgType with
  | 1 =>
    match getU32 data with
    | none => .outOfBounds
    | some (codecSize, d1) =>
      match splitTo codecSize d1 with
      | none => .outOfBounds
      | some (codec, d2) =>
        if e.utf8Ok codec then
          match getU32 d2 with
          | none => .outOfBounds
          | some (psize, d3) =>
            match splitTo psize d3 with
            | none => .outOfBounds
            | some (payload, _) => .ok ⟨base, .codecHeader codec payload⟩
        else .err
  | 2 =>
    match getI32 data with
    | none => .outOfBounds
    | some (tsec, d1) =>
      match getI32 d1 with
      | none => .outOfBounds
      | some (tusec, d2) =>
        match getU32 d2 with
        | none => .outOfBounds
        | some (psize, d3) =>
          match splitTo psize d3 with
          | none => .outOfBounds
          | some (payload, _) =>
            .ok ⟨base, .wireChunk (tsec * 1000000000 + tusec * 1000) payload⟩
  | 3 =>
    match getU32 data with
    | none => .outOfBounds
    | some (psize, d1) =>
      match splitTo psize d1 with
      | none => .outOfBounds
      | some (payload, _) =>
        match e.settingsFromJson payload with
        | some s => .ok ⟨base, .serverSettings s⟩
        | none => .err
  | 4 =>
    match getI32 data with
    | none => .outOfBounds
    | some (dsec, d1) =>
      match getI32 d1 with
      | none => .outOfBounds
      | some (dusec, _) => .ok ⟨base, .time (dsec * 1000000000 + dusec * 1000)⟩
  | 5 =>
    match getU32 data with
    | none => .outOfBounds
    | some (psize, d1) =>
      match splitTo psize d1 with
      | none => .outOfBounds
      | some (payload, _) =>
        match e.helloFromJson payload with
        | some h => .ok ⟨base, .hello h⟩
        | none => .err
  | 6 =>
    match getU32 data with
    | none => .outOfBounds
    | some (psize, d1) =>
      match splitTo psize d1 with
      | none => .outOfBounds
      | some (payload, _) =>
        match e.tagsFromJson payload with
        | some t => .ok ⟨base, .streamTags t⟩
        | none => .err
  | _ => .err

/-- `SnapCodec::decode`.  The second component is the buffer left after the
call (the Rust code mutates `src` in place): unchanged on `needMore`, with
envelope and body consumed otherwise.  `elapsed` is the codec stream's
`instant.elapsed()`, stamped into `received`; the `received` bytes of the
envelope (offsets 6..14) are read by the cursor and discarded. -/
def decode (e : Ext) (elapsed : ℤ) (src : List ℕ) : DecodeResult × List ℕ :=
  if src.length < 26 then (.needMore, src)
  else
    let msgType := readU16 src
    let size := readU32 (src.drop 22)
    if src.length < 26 + size then (.needMore, src)
    else
      let base : SnapBase :=
        { id := readU16 (src.drop 2)
          refersTo := readU16 (src.drop 4)
          received := elapsed
          sent := readI32 (src.drop 14) * 1000000000 + readI32 (src.drop 18) * 1000 }
      let data := (src.drop 26).take size
      (parseBody e base msgType data, src.drop (26 + size))

/-- Byte-boundedness of a buffer (its elements are `u8` values). -/
def IsBytes (l : List ℕ) : Prop := ∀ b ∈ l, b < 256

instance : DecidablePred IsBytes := fun l => List.decidableBAll _ l

/-- Range of a duration whose seconds component must survive the `i32`
conversion, together with microsecond granularity (the wire format carries
microseconds, so sub-microsecond durations cannot round-trip). -/
def DurOk (d : ℤ) : Prop :=
  -2147483648 ≤ wholeSeconds d ∧ wholeSeconds d < 2147483648 ∧ (1000 : ℤ) ∣ d

instance : DecidablePred DurOk := fun d => by unfold DurOk; infer_instance

/-- Well-formedness of a body with respect to the external serializers. -/
def KindWF (e : Ext) : SnapKind → Prop
  | .codecHeader c p =>
      e.utf8Ok c = true ∧ c.length < 4294967296 ∧ p.length < 4294967296 ∧
      IsBytes c ∧ IsBytes p
  | .wireChunk ts p => DurOk ts ∧ IsBytes p
  | .serverSettings s =>
      e.settingsFromJson (e.settingsToJson s) = some s ∧
      (e.settingsToJson s).length < 4294967296 ∧ IsBytes (e.settingsToJson s)
  | .time d => DurOk d
  | .hello h =>
      e.helloFromJson (e.helloToJson h) = some h ∧
      (e.helloToJson h).length < 4294967296 ∧ IsBytes (e.helloToJson h)
  | .streamTags t =>
      e.tagsFromJson (e.tagsToJson t) = some t ∧
      (e.tagsToJson t).length < 4294967296 ∧ IsBytes (e.tagsToJson t)

/-- Well-formed message: `u16` fields in range, durations representable on
the wire, body size below `2 ^ 32`, and the body's own invariants. -/
def WellFormed (e : Ext) (m : SnapMessage) : Prop :=
  m.base.id < 65536 ∧ m.base.refersTo < 65536 ∧
  DurOk m.base.received ∧ DurOk m.base.sent ∧
  kindSize e m.kind < 4294967296 ∧ KindWF e m.kind

instance (e : Ext) (k : SnapKind) : Decidable (KindWF e k) := by
  cases k <;> (unfold KindWF; infer_instance)

instance (e : Ext) (m : SnapMessage) : Decidable (WellFormed e m) := by
  unfold WellFormed
  infer_instance

/-! ## Snap client (`src/controller/music/snap/client.rs`) -/

/-- The part of a claxon `FlacHeader` the client reads:
`header.streaminfo().sample_rate`. -/
structure FlacHeaderInfo where
  sampleRate : ℕ
deriving DecidableEq, Repr

/-- External collaborators of the client: claxon's `FlacHeader::from_header`
and `Block::from_frame`.  A decoded block is its channel count together with
its channel-sequential sample buffer (`block.channels()`,
`block.into_buffer()`). -/
structure ClientExt where
  flacHeaderOf : List ℕ → Option FlacHeaderInfo
  flacBlockOf : List ℕ → Option (ℕ × List ℤ)

/-- Mutable state of `SnapClient`: `time_diff` and `delay` in nanoseconds,
the optional codec header, and the delay queue as the list of
(samples, delay-in-nanoseconds) entries in insertion order. -/
structure ClientState where
  timeDiff : ℤ
  delay : ℤ
  header : Option FlacHeaderInfo
  queue : List (List ℤ × ℤ)
deriving DecidableEq, Repr

/-- UTF-8 bytes of the string `flac`. -/
def flacUtf8 : List ℕ := [102, 108, 97, 99]

/-- Reduction of an integer to the `i32` value with the same two's-complement
representation. -/
def wrap32 (v : ℤ) : ℤ := (v + 2147483648) % 4294967296 - 2147483648

/-- Wrapping `i32` addition: the release-mode semantics of `+` in the
`sum::<i32>()` of the downmix (debug builds panic on the same overflow). -/
def wadd32 (a b : ℤ) : ℤ := wrap32 (a + b)

/-- Value range of Rust's `i32`, the sample type of a decoded claxon
block. -/
def IsI32 (l : List ℤ) : Prop := ∀ v ∈ l, -2147483648 ≤ v ∧ v < 2147483648

instance : DecidablePred IsI32 := fun l => List.decidableBAll _ l

/-- Channel downmix of `process_message`: for a block that is not
single-channel, sum the channels with wrapping `i32` addition
(`sum::<i32>()`) and divide by the channel count with truncating `i32`
division; a single-channel block is passed through. -/
def downmix (channels : ℕ) (buffer : List ℤ) : List ℤ :=
  if channels ≠ 1 then
    let blockSize := buffer.length / channels
    (List.range blockSize).map fun i =>
      Int.tdiv
        (((List.range channels).map fun j => buffer.getD (i + blockSize * j) 0).foldl wadd32 0)
        (channels : ℤ)
  else buffer

/-- `SnapClient::process_message`.  `now` is `self.instant.elapsed()` at
processing time.  `none` models an `Err` return (unsupported codec, FLAC
header or block parse failure); every other path returns the new state. -/
def processMessage (ce : ClientExt) (now : ℤ) (st : ClientState) (msg : SnapMessage) :
    Option ClientState :=
  match msg.kind with
  | .serverSettings s => some { st with delay := s.bufferMs }
  | .time delta =>
      some { st with timeDiff := Int.tdiv (delta + (msg.base.sent - msg.base.received)) 2 }
  | .codecHeader codec payload =>
      if codec = flacUtf8 then
        match ce.flacHeaderOf payload with
        | some h => some { st with header := some h }
        | none => none
      else none
  | .wireChunk ts payload =>
      match st.header with
      | some _ =>
        match ce.flacBlockOf payload with
        | none => none
        | some (channels, buffer) =>
          let data := downmix channels buffer
          let serverNow := now + st.timeDiff
          let delay := (ts - serverNow) + st.delay
          if 0 < delay then some { st with queue := st.queue ++ [(data, delay)] }
          else some st
      | none => some st
  | _ => some st

/-- Playback length used by the stale-frame check of `SnapClient::next`, in
seconds: `20 ms` when no codec header is present, otherwise
`frame.len() / sample_rate` (an `f64` division, modelled exactly over `ℚ`). -/
def frameLength (header : Option FlacHeaderInfo) (frameLen : ℕ) : ℚ :=
  match header with
  | some h => (frameLen : ℚ) / (h.sampleRate : ℚ)
  | none => 20 / 1000

/-- Stale-frame check of `SnapClient::next` on an expired delay-queue entry:
the frame is returned to the caller when the time past its deadline
(`frame.deadline().elapsed()`, in seconds) is smaller than its playback
length, and dropped otherwise (the loop keeps waiting). -/
def returnsFrame (header : Option FlacHeaderInfo) (timeOver : ℚ) (frameLen : ℕ) : Bool :=
  decide (timeOver < frameLength header frameLen)

/-! ## Music controller (`src/controller/music/mod.rs`) -/

/-- Gravity constant of the spectrum smoothing. -/
def GRAVITY : ℚ := 1

/-- One tick of the gravity smoothing for one band, from
`MusicController::process_frame`: the velocity falls by `GRAVITY`; a band
value above the current one replaces the velocity with
`sqrt(new − current)`; then the value moves by the velocity.  The `f64`
state is modelled over `ℚ` with `sq` the `f64::sqrt` left as a parameter.
Returns (new value, new velocity). -/
def gravityStep (sq : ℚ → ℚ) (new val vel : ℚ) : ℚ × ℚ :=
  let v1 := vel - GRAVITY
  let v2 := if val < new then sq (new - val) else v1
  (val + v2, v2)

/-- Trajectory of one band's `(val, velocity)` under all-zero input frames
(each tick the band average, and hence the EQ-scaled `val` input, is 0). -/
def silentTraj (sq : ℚ → ℚ) (v0 vel0 : ℚ) : ℕ → ℚ × ℚ
  | 0 => (v0, vel0)
  | n + 1 =>
    let p := silentTraj sq v0 vel0 n
    gravityStep sq 0 p.1 p.2

/-- Byte output of a band: `val.clamp(0.0, 255.0) as u8` (saturating clamp,
then truncation toward zero; the clamped value is nonnegative). -/
def clampByte (x : ℚ) : ℕ := (Rat.floor (max 0 (min x 255))).toNat

/-- Retry bound of the music task (`NUM_RETRIES` in
`src/controller/music/mod.rs`). -/
def NUM_RETRIES : ℕ := 5

/-- Connection loop of the music task (`run`), abstracted over the sequence
of connect outcomes.  Each list element is one `SnapClient::discover`
attempt: `true` means the connection succeeded (and, since a `mainloop`
success returns `Ok` and ends the task, that `mainloop` later failed and the
loop continues); `false` means the attempt failed, incrementing the retry
counter.  After each attempt the loop gives up with an error when the
counter exceeds `NUM_RETRIES`, and otherwise sleeps 5 s and retries.  The
result is `some t` when the loop gives up after consuming `t` attempts, and
`none` when the outcome list is exhausted with the loop still running. -/
def runModel (retries : ℕ) : List Bool → Option ℕ
  | [] => none
  | outcome :: rest =>
    let r := if outcome then 0 else retries + 1
    if NUM_RETRIES < r then some 1
    else
      match runModel r rest with
      | some n => some (n + 1)
      | none => none

/-! ## Concrete instances used by witnesses and counterexamples -/

/-- Trivial instantiation of the external collaborators: every byte list is
accepted as UTF-8 and the JSON serializers are vacuous.  Only messages whose
well-formedness does not constrain the JSON functions (for example Time
messages) are used with it. -/
def trivialExt : Ext where
  utf8Ok := fun _ => true
  settingsToJson := fun _ => []
  settingsFromJson := fun _ => none
  helloToJson := fun _ => []
  helloFromJson := fun _ => none
  tagsToJson := fun _ => []
  tagsFromJson := fun _ => none

/-- Sample message for witnesses: a Time message with a 1.5 ms delta,
sent at 2 s + 250 µs, received (placeholder) at 1 ms. -/
def sampleTimeMsg : SnapMessage :=
  { base := { id := 3, refersTo := 0, received := 1000000, sent := 2000250000 }
    kind := .time 1500000 }

/-- Concrete instantiation of the client externals: the FLAC header reports
a 44100 Hz stream and every chunk decodes to a fixed two-channel block
`[30, 10]` (left channel `[30]`, right channel `[10]`). -/
def sampleClientExt : ClientExt where
  flacHeaderOf := fun _ => some ⟨44100⟩
  flacBlockOf := fun _ => some (2, [30, 10])

/-- Client state after clock sync and settings: `time_diff = 0`,
`buffer_ms = 100 ms`, FLAC header present, empty queue. -/
def sampleReadyState : ClientState :=
  { timeDiff := 0, delay := 100000000, header := some ⟨44100⟩, queue := [] }

/-- Client state before any CodecHeader arrived. -/
def sampleNoHeaderState : ClientState :=
  { timeDiff := 7, delay := 100000000, header := none, queue := [] }

/-- An envelope-consistent but internally inconsistent input: a complete
26-byte envelope announcing a 4-byte CodecHeader (tag 1) body, followed by
exactly those 4 bytes, which read as a codec-name length of 100 — more than
the 0 bytes that remain in the body. -/
def truncatedCodecHeaderBytes : List ℕ :=
  [1, 0, 0, 0, 0, 0,
   0, 0, 0, 0, 0, 0, 0, 0,
   0, 0, 0, 0, 0, 0, 0, 0,
   4, 0, 0, 0,
   100, 0, 0, 0]

/-- Exact value of `f64::sqrt` at the only point where the counterexample
trajectory evaluates it: `sqrt 1 = 1` (1 and its root are exactly
representable, and `f64::sqrt` is correctly rounded). -/
def sqrtOne : ℚ → ℚ := fun x => if x = 1 then 1 else 0

/-! ## Round-trip lemmas for the byte primitives -/

lemma readU16_u16le (x : ℕ) (l : List ℕ) (h : x < 65536) :
    readU16 (u16le x ++ l) = x := by
  simp [readU16, u16of, u16le]
  omega

lemma u32of_u32le (x : ℕ) (h : x < 4294967296) :
    u32of (x % 256) (x / 256 % 256) (x / 65536 % 256) (x / 16777216 % 256) = x := by
  unfold u32of
  omega

lemma readU32_u32le (x : ℕ) (l : List ℕ) (h : x < 4294967296) :
    readU32 (u32le x ++ l) = x := by
  simp [readU32, u32le]
  exact u32of_u32le x h

lemma i32of_i32le (v : ℤ) (h1 : -2147483648 ≤ v) (h2 : v < 2147483648) :
    i32of ((v % 4294967296).toNat % 256) ((v % 4294967296).toNat / 256 % 256)
      ((v % 4294967296).toNat / 65536 % 256) ((v % 4294967296).toNat / 16777216 % 256) = v := by
  have hm := Int.toNat_of_nonneg
    (Int.emod_nonneg v (show (4294967296 : ℤ) ≠ 0 by norm_num))
  simp only [i32of, u32of]
  split <;> omega

lemma readI32_i32le (v : ℤ) (l : List ℕ) (h1 : -2147483648 ≤ v) (h2 : v < 2147483648) :
    readI32 (i32le v ++ l) = v := by
  simp [readI32, i32le, u32le]
  exact i32of_i32le v h1 h2

lemma getU32_u32le (x : ℕ) (l : List ℕ) (h : x < 4294967296) :
    getU32 (u32le x ++ l) = some (x, l) := by
  simp [getU32, u32le]
  exact u32of_u32le x h

lemma getI32_i32le (v : ℤ) (l : List ℕ) (h1 : -2147483648 ≤ v) (h2 : v < 2147483648) :
    getI32 (i32le v ++ l) = some (v, l) := by
  simp [getI32, i32le, u32le]
  exact i32of_i32le v h1 h2

lemma splitTo_append (c l : List ℕ) : splitTo c.length (c ++ l) = some (c, l) := by
  unfold splitTo
  rw [if_pos (by simp)]
  rw [List.take_left, List.drop_left]

/-! ## Duration lemmas -/

lemma tmod_neg_dividend (d n : ℤ) : Int.tmod (-d) n = -Int.tmod d n := by
  have e1 := Int.tdiv_add_tmod d n
  have e2 := Int.tdiv_add_tmod (-d) n
  rw [Int.neg_tdiv, mul_neg] at e2
  linarith

lemma tmod_lt (d n : ℤ) (hn : 0 < n) : -n < Int.tmod d n ∧ Int.tmod d n < n := by
  refine ⟨?_, Int.tmod_lt_of_pos d hn⟩
  rcases le_or_lt 0 d with h | h
  · have := Int.tmod_nonneg n h
    linarith
  · have h2 := Int.tmod_lt_of_pos (-d) hn
    rw [tmod_neg_dividend] at h2
    linarith

lemma tmod_nonpos (a b : ℤ) (h : a ≤ 0) : Int.tmod a b ≤ 0 := by
  have hn := Int.tmod_nonneg b (neg_nonneg.mpr h)
  have e : Int.tmod (-a) b = -Int.tmod a b := tmod_neg_dividend a b
  linarith

lemma subsecMicros_bounds (d : ℤ) : -1000000 < subsecMicros d ∧ subsecMicros d < 1000000 := by
  obtain ⟨hl, hh⟩ := tmod_lt d 1000000000 (by norm_num)
  unfold subsecMicros
  obtain ⟨hl2, hh2⟩ := tmod_lt (Int.tmod d 1000000000) 1000 (by norm_num)
  have e := Int.tdiv_add_tmod (Int.tmod d 1000000000) 1000
  rcases le_or_lt 0 (Int.tmod d 1000000000) with hs | hs
  · have hsgn := Int.tmod_nonneg 1000 hs
    omega
  · have hsgn := tmod_nonpos (Int.tmod d 1000000000) 1000 (le_of_lt hs)
    omega

lemma i32ok_subsec (d : ℤ) : i32ok (subsecMicros d) = true := by
  have := subsecMicros_bounds d
  simp only [i32ok, decide_eq_true_eq]
  omega

lemma duration_roundtrip (d : ℤ) (h : (1000 : ℤ) ∣ d) :
    wholeSeconds d * 1000000000 + subsecMicros d * 1000 = d := by
  unfold wholeSeconds subsecMicros
  have e1 := Int.tdiv_add_tmod d 1000000000
  have hr : (1000 : ℤ) ∣ Int.tmod d 1000000000 := by
    have e : Int.tmod d 1000000000 = d - 1000000000 * Int.tdiv d 1000000000 := by linarith
    rw [e]
    exact dvd_sub h ((show (1000 : ℤ) ∣ 1000000000 by norm_num).mul_right _)
  have e2 := Int.tdiv_mul_cancel hr
  linarith

lemma bodyBytes_length (e : Ext) (k : SnapKind) : (bodyBytes e k).length = kindSize e k := by
  cases k <;> simp [bodyBytes, kindSize, u32le, i32le] <;> omega

lemma splitTo_self (c : List ℕ) : splitTo c.length c = some (c, []) := by
  have h := splitTo_append c []
  simpa using h

lemma kindId_lt (k : SnapKind) : kindId k < 65536 := by
  cases k <;> simp [kindId]

/-! ## Envelope drops: skipping already-read header fields computes away. -/

lemma dropHdr2 (a : ℕ) (l : List ℕ) : (u16le a ++ l).drop 2 = l := rfl

lemma dropHdr4 (a b : ℕ) (l : List ℕ) : (u16le a ++ (u16le b ++ l)).drop 4 = l := rfl

lemma dropHdr14 (a b c : ℕ) (v1 v2 : ℤ) (l : List ℕ) :
    (u16le a ++ (u16le b ++ (u16le c ++ (i32le v1 ++ (i32le v2 ++ l))))).drop 14 = l := rfl

lemma dropHdr18 (a b c : ℕ) (v1 v2 v3 : ℤ) (l : List ℕ) :
    (u16le a ++ (u16le b ++ (u16le c ++ (i32le v1 ++ (i32le v2 ++
      (i32le v3 ++ l)))))).drop 18 = l := rfl

lemma dropHdr22 (a b c : ℕ) (v1 v2 v3 v4 : ℤ) (l : List ℕ) :
    (u16le a ++ (u16le b ++ (u16le c ++ (i32le v1 ++ (i32le v2 ++
      (i32le v3 ++ (i32le v4 ++ l))))))).drop 22 = l := rfl

lemma dropHdr26 (a b c : ℕ) (v1 v2 v3 v4 : ℤ) (z : ℕ) (l : List ℕ) :
    (u16le a ++ (u16le b ++ (u16le c ++ (i32le v1 ++ (i32le v2 ++
      (i32le v3 ++ (i32le v4 ++ (u32le z ++ l)))))))).drop 26 = l := rfl

lemma takeHdr26 (a b c : ℕ) (v1 v2 v3 v4 : ℤ) (z : ℕ) (l : List ℕ) :
    (u16le a ++ (u16le b ++ (u16le c ++ (i32le v1 ++ (i32le v2 ++
      (i32le v3 ++ (i32le v4 ++ (u32le z ++ l)))))))).take 26 =
    u16le a ++ (u16le b ++ (u16le c ++ (i32le v1 ++ (i32le v2 ++
      (i32le v3 ++ (i32le v4 ++ (u32le z ++ []))))))) := rfl

/-! ## Characterization of encode and decode on well-formed messages -/

lemma encode_eq (e : Ext) (m : SnapMessage) (h : WellFormed e m) :
    encode e m = some (u16le (kindId m.kind) ++ (u16le m.base.id ++ (u16le m.base.refersTo ++
      (i32le (wholeSeconds m.base.received) ++ (i32le (subsecMicros m.base.received) ++
      (i32le (wholeSeconds m.base.sent) ++ (i32le (subsecMicros m.base.sent) ++
      (u32le (kindSize e m.kind) ++ bodyBytes e m.kind)))))))) := by
  obtain ⟨hid, hrt, hrcv, hsnt, hsz, hkwf⟩ := h
  have hg : (i32ok (wholeSeconds m.base.received) && i32ok (subsecMicros m.base.received) &&
      i32ok (wholeSeconds m.base.sent) && i32ok (subsecMicros m.base.sent) &&
      kindGuard e m.kind) = true := by
    simp only [Bool.and_eq_true]
    refine ⟨⟨⟨⟨?_, i32ok_subsec _⟩, ?_⟩, i32ok_subsec _⟩, ?_⟩
    · simp only [i32ok, decide_eq_true_eq]
      exact ⟨hrcv.1, hrcv.2.1⟩
    · simp only [i32ok, decide_eq_true_eq]
      exact ⟨hsnt.1, hsnt.2.1⟩
    · cases k : m.kind with
      | codecHeader c p =>
        rw [k] at hkwf
        obtain ⟨_, hc, hp, _, _⟩ := hkwf
        simp only [kindGuard, u32ok, Bool.and_eq_true, decide_eq_true_eq]
        exact ⟨hc, hp⟩
      | wireChunk ts p =>
        rw [k] at hkwf
        simp only [kindGuard, Bool.and_eq_true]
        refine ⟨?_, i32ok_subsec _⟩
        simp only [i32ok, decide_eq_true_eq]
        exact ⟨hkwf.1.1, hkwf.1.2.1⟩
      | serverSettings s =>
        rw [k] at hkwf
        simp only [kindGuard, u32ok, decide_eq_true_eq]
        exact hkwf.2.1
      | time d =>
        rw [k] at hkwf
        simp only [kindGuard, Bool.and_eq_true]
        refine ⟨?_, i32ok_subsec _⟩
        simp only [i32ok, decide_eq_true_eq]
        exact ⟨hkwf.1, hkwf.2.1⟩
      | hello p =>
        rw [k] at hkwf
        simp only [kindGuard, u32ok, decide_eq_true_eq]
        exact hkwf.2.1
      | streamTags t =>
        rw [k] at hkwf
        simp only [kindGuard, u32ok, decide_eq_true_eq]
        exact hkwf.2.1
  unfold encode
  rw [if_pos hg]
  simp [List.append_assoc]

lemma parseBody_bodyBytes (e : Ext) (base : SnapBase) (k : SnapKind)
    (hsz : kindSize e k < 4294967296) (hk : KindWF e k) :
    parseBody e base (kindId k) (bodyBytes e k) = .ok ⟨base, k⟩ := by
  cases k with
  | codecHeader c p =>
    obtain ⟨hu, hc, hp, _, _⟩ := hk
    show parseBody e base 1 (u32le c.length ++ c ++ u32le p.length ++ p) = _
    rw [show u32le c.length ++ c ++ u32le p.length ++ p =
        u32le c.length ++ (c ++ (u32le p.length ++ p)) by simp [List.append_assoc]]
    simp [parseBody, getU32_u32le _ _ hc, splitTo_append, hu, getU32_u32le _ _ hp,
      splitTo_self]
  | wireChunk ts p =>
    obtain ⟨hd, _⟩ := hk
    have hp : p.length < 4294967296 := by
      simp only [kindSize] at hsz
      omega
    have hsub := subsecMicros_bounds ts
    show parseBody e base 2
      (i32le (wholeSeconds ts) ++ i32le (subsecMicros ts) ++ u32le p.length ++ p) = _
    rw [show i32le (wholeSeconds ts) ++ i32le (subsecMicros ts) ++ u32le p.length ++ p =
        i32le (wholeSeconds ts) ++ (i32le (subsecMicros ts) ++ (u32le p.length ++ p)) by
      simp [List.append_assoc]]
    simp [parseBody, getI32_i32le _ _ hd.1 hd.2.1,
      getI32_i32le _ _ (show (-2147483648 : ℤ) ≤ subsecMicros ts by omega)
        (show subsecMicros ts < 2147483648 by omega),
      getU32_u32le _ _ hp, splitTo_self, duration_roundtrip ts hd.2.2]
  | serverSettings s =>
    obtain ⟨hj, hl, _⟩ := hk
    show parseBody e base 3 (u32le (e.settingsToJson s).length ++ e.settingsToJson s) = _
    simp [parseBody, getU32_u32le _ _ hl, splitTo_self, hj]
  | time d =>
    have hsub := subsecMicros_bounds d
    have h2 : getI32 (i32le (subsecMicros d)) = some (subsecMicros d, []) := by
      have h := getI32_i32le (subsecMicros d) []
        (show (-2147483648 : ℤ) ≤ subsecMicros d by omega)
        (show subsecMicros d < 2147483648 by omega)
      simpa using h
    show parseBody e base 4 (i32le (wholeSeconds d) ++ i32le (subsecMicros d)) = _
    simp [parseBody, getI32_i32le _ _ hk.1 hk.2.1, h2, duration_roundtrip d hk.2.2]
  | hello p =>
    obtain ⟨hj, hl, _⟩ := hk
    show parseBody e base 5 (u32le (e.helloToJson p).length ++ e.helloToJson p) = _
    simp [parseBody, getU32_u32le _ _ hl, splitTo_self, hj]
  | streamTags t =>
    obtain ⟨hj, hl, _⟩ := hk
    show parseBody e base 6 (u32le (e.tagsToJson t).length ++ e.tagsToJson t) = _
    simp [parseBody, getU32_u32le _ _ hl, splitTo_self, hj]

lemma decode_envelope (e : Ext) (elapsed : ℤ) (tag mid mrt : ℕ) (rs ru ss su : ℤ)
    (sz : ℕ) (body : List ℕ)
    (htag : tag < 65536) (hmid : mid < 65536) (hmrt : mrt < 65536)
    (hss1 : -2147483648 ≤ ss) (hss2 : ss < 2147483648)
    (hsu1 : -2147483648 ≤ su) (hsu2 : su < 2147483648)
    (hsz : sz < 4294967296) (hbody : body.length = sz) :
    decode e elapsed (u16le tag ++ (u16le mid ++ (u16le mrt ++ (i32le rs ++ (i32le ru ++
      (i32le ss ++ (i32le su ++ (u32le sz ++ body)))))))) =
    (parseBody e ⟨mid, mrt, elapsed, ss * 1000000000 + su * 1000⟩ tag body, []) := by
  have hlen : (u16le tag ++ (u16le mid ++ (u16le mrt ++ (i32le rs ++ (i32le ru ++
      (i32le ss ++ (i32le su ++ (u32le sz ++ body)))))))).length = 26 + sz := by
    simp [u16le, u32le, i32le, hbody]
    omega
  unfold decode
  rw [hlen, dropHdr2, dropHdr4, dropHdr14, dropHdr18, dropHdr22, dropHdr26,
    readU16_u16le _ _ htag, readU16_u16le _ _ hmid, readU16_u16le _ _ hmrt,
    readU32_u32le _ _ hsz, readI32_i32le _ _ hss1 hss2, readI32_i32le _ _ hsu1 hsu2]
  rw [if_neg (by omega), if_neg (by omega)]
  rw [← hbody, List.take_length]
  rw [← List.drop_drop, dropHdr26, List.drop_length]

lemma decode_needMore_short (e : Ext) (elapsed : ℤ) (src : List ℕ)
    (h : src.length < 26) : decode e elapsed src = (.needMore, src) := by
  unfold decode
  rw [if_pos h]

lemma decode_envelope_needMore (e : Ext) (elapsed : ℤ) (tag mid mrt : ℕ)
    (rs ru ss su : ℤ) (sz : ℕ) (tail : List ℕ)
    (hsz : sz < 4294967296) (htail : tail.length < sz) :
    decode e elapsed (u16le tag ++ (u16le mid ++ (u16le mrt ++ (i32le rs ++ (i32le ru ++
      (i32le ss ++ (i32le su ++ (u32le sz ++ tail)))))))) =
    (.needMore, u16le tag ++ (u16le mid ++ (u16le mrt ++ (i32le rs ++ (i32le ru ++
      (i32le ss ++ (i32le su ++ (u32le sz ++ tail)))))))) := by
  have hlen : (u16le tag ++ (u16le mid ++ (u16le mrt ++ (i32le rs ++ (i32le ru ++
      (i32le ss ++ (i32le su ++ (u32le sz ++ tail)))))))).length = 26 + tail.length := by
    simp [u16le, u32le, i32le]
    omega
  unfold decode
  rw [hlen, dropHdr22, readU32_u32le _ _ hsz]
  rw [if_neg (by omega), if_pos (by omega)]

/-! ## Gravity trajectory lemmas -/

lemma clampByte_nonpos (x : ℚ) (h : x ≤ 0) : clampByte x = 0 := by
  unfold clampByte
  rw [min_eq_left (by linarith : x ≤ 255), max_eq_left h]
  decide

lemma silentTraj_succ (sq : ℚ → ℚ) (v0 vel0 : ℚ) (n : ℕ)
    (h : 0 ≤ (silentTraj sq v0 vel0 n).1) :
    silentTraj sq v0 vel0 (n + 1) =
      ((silentTraj sq v0 vel0 n).1 + ((silentTraj sq v0 vel0 n).2 - 1),
       (silentTraj sq v0 vel0 n).2 - 1) := by
  simp only [silentTraj, gravityStep, GRAVITY]
  rw [if_neg (not_lt.mpr h)]

lemma silentTraj_invariant (sq : ℚ → ℚ) (v0 vel0 : ℚ) (n : ℕ)
    (hpos : ∀ k < n, 0 ≤ (silentTraj sq v0 vel0 k).1) :
    (silentTraj sq v0 vel0 n).2 ≤ vel0 - n ∧
    (silentTraj sq v0 vel0 n).1 ≤ v0 + n * vel0 - (n * (n + 1)) / 2 := by
  induction n with
  | zero => simp [silentTraj]
  | succ n ih =>
    obtain ⟨ih1, ih2⟩ := ih fun k hk => hpos k (by omega)
    have h0 : 0 ≤ (silentTraj sq v0 vel0 n).1 := hpos n (by omega)
    rw [silentTraj_succ sq v0 vel0 n h0]
    constructor
    · push_cast
      linarith
    · push_cast
      nlinarith [ih1, ih2]

lemma silentTraj_reaches (sq : ℚ → ℚ) (v0 vel0 : ℚ) (h0 : 0 ≤ v0) (hvel : vel0 ≤ 0) :
    ∃ n ≤ Nat.sqrt (2 * (⌈v0⌉).toNat) + 1, (silentTraj sq v0 vel0 n).1 ≤ 0 := by
  by_contra hc
  push_neg at hc
  set N := Nat.sqrt (2 * (⌈v0⌉).toNat) + 1 with hN
  have hpos : ∀ k < N, 0 ≤ (silentTraj sq v0 vel0 k).1 :=
    fun k hk => le_of_lt (hc k (by omega))
  obtain ⟨_, h2⟩ := silentTraj_invariant sq v0 vel0 N hpos
  have hcN : 0 < (silentTraj sq v0 vel0 N).1 := hc N le_rfl
  have hsq : 2 * (⌈v0⌉).toNat < N * N := by
    rw [hN]
    exact Nat.lt_succ_sqrt _
  have hceil : v0 ≤ ((⌈v0⌉).toNat : ℚ) := by
    have h1 := Int.le_ceil v0
    have h3 : ((⌈v0⌉).toNat : ℤ) = ⌈v0⌉ := Int.toNat_of_nonneg (Int.ceil_nonneg h0)
    have h4 : ((⌈v0⌉).toNat : ℚ) = ((⌈v0⌉ : ℤ) : ℚ) := by
      rw [← h3]
      exact (Int.cast_natCast _).symm
    rw [h4]
    exact h1
  have hsqQ : 2 * ((⌈v0⌉).toNat : ℚ) < (N : ℚ) * N := by exact_mod_cast hsq
  have hNvel : (N : ℚ) * vel0 ≤ 0 :=
    mul_nonpos_iff.mpr (Or.inl ⟨Nat.cast_nonneg N, hvel⟩)
  nlinarith [h2, hcN, hsqQ, hceil, hNvel, Nat.cast_nonneg (α := ℚ) N]

lemma wrap32_eq_self (v : ℤ) (h1 : -2147483648 ≤ v) (h2 : v < 2147483648) :
    wrap32 v = v := by
  unfold wrap32
  omega

lemma getD_mem_of_lt (l : List ℤ) (i : ℕ) (hi : i < l.length) : l.getD i 0 ∈ l := by
  rw [List.getD_eq_getElem?_getD, List.getElem?_eq_getElem hi, Option.getD_some]
  exact List.getElem_mem hi

/-! ## Claims -/

/-- C1: for every well-formed `SnapMessage` `m`, decoding the byte sequence
produced by encoding `m` yields `m` again, with every field of the envelope
(type tag, id, refers_to, sent, body length) and of the body preserved,
except the `received` field, which the decoder overwrites with its own
stream's elapsed time; the whole encoding is consumed. -/
theorem c1_decode_encode_roundtrip (e : Ext) (m : SnapMessage) (elapsed : ℤ)
    (h : WellFormed e m) :
    ∃ bs, encode e m = some bs ∧
      decode e elapsed bs =
        (.ok { base := { m.base with received := elapsed }, kind := m.kind }, []) := by
  obtain ⟨hid, hrt, hrcv, hsnt, hsz, hkwf⟩ := h
  have hsub := subsecMicros_bounds m.base.sent
  refine ⟨_, encode_eq e m ⟨hid, hrt, hrcv, hsnt, hsz, hkwf⟩, ?_⟩
  rw [decode_envelope e elapsed (kindId m.kind) m.base.id m.base.refersTo
    (wholeSeconds m.base.received) (subsecMicros m.base.received)
    (wholeSeconds m.base.sent) (subsecMicros m.base.sent)
    (kindSize e m.kind) (bodyBytes e m.kind)
    (kindId_lt m.kind) hid hrt hsnt.1 hsnt.2.1 (by omega) (by omega) hsz
    (bodyBytes_length e m.kind)]
  rw [duration_roundtrip m.base.sent hsnt.2.2]
  rw [parseBody_bodyBytes e _ m.kind hsz hkwf]

/-- Witness for C1, at a concrete Time message. -/
theorem c1_decode_encode_roundtrip_witness :
    WellFormed trivialExt sampleTimeMsg ∧
    ∃ bs, encode trivialExt sampleTimeMsg = some bs ∧
      decode trivialExt 42 bs =
        (.ok { base := { sampleTimeMsg.base with received := 42 },
               kind := sampleTimeMsg.kind }, []) :=
  ⟨by decide, c1_decode_encode_roundtrip trivialExt sampleTimeMsg 42 (by decide)⟩

/-- C9: for every well-formed message `m` and every strict prefix of
`encode m` (its length is below `26 + body_len`), decode returns the
"need more" outcome and consumes no bytes: the buffer after the call is
exactly the input. -/
theorem c9_decode_partial_input_needMore (e : Ext) (m : SnapMessage) (elapsed : ℤ)
    (bs : List ℕ) (k : ℕ) (h : WellFormed e m) (henc : encode e m = some bs)
    (hk : k < bs.length) :
    decode e elapsed (bs.take k) = (.needMore, bs.take k) := by
  obtain ⟨hid, hrt, hrcv, hsnt, hsz, hkwf⟩ := h
  have hB := encode_eq e m ⟨hid, hrt, hrcv, hsnt, hsz, hkwf⟩
  rw [henc] at hB
  have hbs : bs = _ := Option.some_injective _ hB
  have hlen : bs.length = 26 + kindSize e m.kind := by
    rw [hbs]
    simp [u16le, u32le, i32le, bodyBytes_length]
    omega
  rcases lt_or_le k 26 with hk26 | hk26
  · exact decode_needMore_short e elapsed _ (by rw [List.length_take]; omega)
  · obtain ⟨j, rfl⟩ : ∃ j, k = 26 + j := ⟨k - 26, by omega⟩
    have hj : j < kindSize e m.kind := by omega
    have hsplit : bs.take (26 + j) =
        u16le (kindId m.kind) ++ (u16le m.base.id ++ (u16le m.base.refersTo ++
        (i32le (wholeSeconds m.base.received) ++ (i32le (subsecMicros m.base.received) ++
        (i32le (wholeSeconds m.base.sent) ++ (i32le (subsecMicros m.base.sent) ++
        (u32le (kindSize e m.kind) ++ (bodyBytes e m.kind).take j))))))) := by
      rw [hbs, List.take_add, takeHdr26, dropHdr26]
      simp [List.append_assoc]
    rw [hsplit]
    exact decode_envelope_needMore e elapsed _ _ _ _ _ _ _ _ _ hsz
      (by rw [List.length_take, bodyBytes_length]; omega)

/-- Witness for C9, at two concrete strict-prefix lengths of an encoded Time
message: one shorter than the envelope, one inside the body. -/
theorem c9_decode_partial_input_needMore_witness :
    (decode trivialExt 0 (((encode trivialExt sampleTimeMsg).getD []).take 7) =
      (.needMore, ((encode trivialExt sampleTimeMsg).getD []).take 7)) ∧
    (decode trivialExt 0 (((encode trivialExt sampleTimeMsg).getD []).take 27) =
      (.needMore, ((encode trivialExt sampleTimeMsg).getD []).take 27)) :=
  ⟨c9_decode_partial_input_needMore trivialExt sampleTimeMsg 0 _ 7 (by decide)
      (by decide) (by decide),
   c9_decode_partial_input_needMore trivialExt sampleTimeMsg 0 _ 27 (by decide)
      (by decide) (by decide)⟩

/-- C10: decode validates the envelope's body-length field against the
buffered bytes but never validates the length fields inside a body: on a
buffered input whose 26-byte envelope announces a 4-byte tag-1 (CodecHeader)
body and whose body's codec-name length field reads 100, decode neither
returns a message nor an error — it reaches the out-of-bounds
`split_to` (a panic in the bytes crate), so decode is not total over
envelope-consistent inputs. -/
theorem c10_decode_inner_length_unchecked :
    decode trivialExt 0 truncatedCodecHeaderBytes = (.outOfBounds, []) := by
  decide

/-- C2: processing a received Time message carrying `delta =
client_to_server` sets `time_diff := (client_to_server + (base.sent −
base.received)) / 2` (truncating division of the nanosecond count); in
particular a delta of +20 ms with `base.sent − base.received = +10 ms`
yields `time_diff = +15 ms` (second conjunct). -/
theorem c2_time_message_sets_time_diff (ce : ClientExt) (now : ℤ) (st : ClientState)
    (base : SnapBase) (delta : ℤ) :
    processMessage ce now st { base := base, kind := .time delta } =
      some { st with timeDiff := Int.tdiv (delta + (base.sent - base.received)) 2 } ∧
    processMessage ce now st
      { base := { id := 0, refersTo := 0, received := 0, sent := 10000000 },
        kind := .time 20000000 } =
      some { st with timeDiff := 15000000 } := by
  refine ⟨rfl, ?_⟩
  have h : Int.tdiv (30000000 : ℤ) 2 = 15000000 := by decide
  simp [processMessage, h]

/-- C3: a WireChunk processed while a codec header is present has its
samples downmixed and inserted into the delay queue with delay
`(timestamp − (T0.elapsed() + time_diff)) + buffer_ms` exactly when that
delay is positive; otherwise the chunk is dropped and nothing is enqueued. -/
theorem c3_wirechunk_scheduling (ce : ClientExt) (now : ℤ) (st : ClientState)
    (base : SnapBase) (ts : ℤ) (payload : List ℕ) (hdr : FlacHeaderInfo)
    (channels : ℕ) (buffer : List ℤ)
    (hh : st.header = some hdr) (hb : ce.flacBlockOf payload = some (channels, buffer)) :
    processMessage ce now st { base := base, kind := .wireChunk ts payload } =
      some (if 0 < (ts - (now + st.timeDiff)) + st.delay
        then { st with queue :=
          st.queue ++ [(downmix channels buffer, (ts - (now + st.timeDiff)) + st.delay)] }
        else st) := by
  simp only [processMessage, hh, hb]
  split <;> rfl

/-- Witness for C3: with `server_now = 0` and `buffer_ms = 100 ms`, a chunk
stamped +50 ms is enqueued with delay 150 ms, and a chunk stamped −200 ms is
dropped. -/
theorem c3_wirechunk_scheduling_witness :
    processMessage sampleClientExt 0 sampleReadyState
      { base := ⟨0, 0, 0, 0⟩, kind := .wireChunk 50000000 [] } =
      some { sampleReadyState with queue := [([20], 150000000)] } ∧
    processMessage sampleClientExt 0 sampleReadyState
      { base := ⟨0, 0, 0, 0⟩, kind := .wireChunk (-200000000) [] } =
      some sampleReadyState := by
  constructor
  · rw [c3_wirechunk_scheduling sampleClientExt 0 sampleReadyState ⟨0, 0, 0, 0⟩
      50000000 [] ⟨44100⟩ 2 [30, 10] rfl rfl]
    decide
  · rw [c3_wirechunk_scheduling sampleClientExt 0 sampleReadyState ⟨0, 0, 0, 0⟩
      (-200000000) [] ⟨44100⟩ 2 [30, 10] rfl rfl]
    decide

/-- C4: an expired delay-queue entry is returned by `next` exactly when the
time past its deadline is smaller than the frame's own playback length
`samples / sample_rate` (otherwise it is dropped and the loop keeps
waiting); in particular a 1024-sample frame at 44100 Hz expired 50 ms ago is
dropped, and the same frame expired 5 ms ago is returned. -/
theorem c4_stale_frame_check :
    (∀ (r : FlacHeaderInfo) (t : ℚ) (n : ℕ),
      returnsFrame (some r) t n = true ↔ t < (n : ℚ) / (r.sampleRate : ℚ)) ∧
    returnsFrame (some ⟨44100⟩) (50 / 1000) 1024 = false ∧
    returnsFrame (some ⟨44100⟩) (5 / 1000) 1024 = true := by
  refine ⟨fun r t n => by simp [returnsFrame, frameLength], ?_, ?_⟩
  · simp only [returnsFrame, frameLength, decide_eq_false_iff_not]
    norm_num
  · simp only [returnsFrame, frameLength, decide_eq_true_eq]
    norm_num

/-- Counterexample to C5 as stated: the channel sum is `i32` arithmetic, so
for the two-channel block `[2147483647] ++ [1]` (both samples valid `i32`
values, as claxon can deliver 32-bit samples) the sum wraps to `−2^31` in a
release build and the output sample is `−1073741824`, not
`(2147483647 + 1) / 2 = 1073741824` (a debug build panics on the same
addition). -/
theorem c5_downmix_overflow_counterexample :
    (downmix 2 ([2147483647] ++ [1])).getD 0 0 ≠ Int.tdiv ((2147483647 : ℤ) + 1) 2 := by
  decide

/-- C5 amended: for a two-channel block `L ++ R` of `i32` samples, the
downmixed output at index `i` is the two's-complement-wrapped `i32` sum of
`L_i` and `R_i` divided by 2 with truncating division; whenever `L_i + R_i`
does not overflow `i32` — in particular for all samples of width at most 31
bits — this is exactly `(L_i + R_i) / 2` as the claim states (second
conjunct); a single-channel block is passed through unchanged. -/
theorem c5_downmix_average_amended (L R b : List ℤ) (i : ℕ)
    (hL : IsI32 L) (hR : IsI32 R)
    (hlen : L.length = R.length) (hi : i < L.length) :
    (downmix 2 (L ++ R)).getD i 0 = Int.tdiv (wrap32 (L.getD i 0 + R.getD i 0)) 2 ∧
    ((-2147483648 ≤ L.getD i 0 + R.getD i 0 ∧ L.getD i 0 + R.getD i 0 < 2147483648) →
      (downmix 2 (L ++ R)).getD i 0 = Int.tdiv (L.getD i 0 + R.getD i 0) 2) ∧
    downmix 1 b = b := by
  have hLrange := hL _ (getD_mem_of_lt L i hi)
  have hmain : (downmix 2 (L ++ R)).getD i 0 =
      Int.tdiv (wrap32 (L.getD i 0 + R.getD i 0)) 2 := by
    have hbl : (L ++ R).length / 2 = L.length := by
      simp [List.length_append, ← hlen]
      omega
    simp only [downmix, if_pos (by norm_num : (2 : ℕ) ≠ 1), hbl]
    rw [List.getD_eq_getElem?_getD, List.getElem?_map, List.getElem?_range hi]
    have hr2 : List.range 2 = [0, 1] := by decide
    simp only [hr2, List.map_cons, List.map_nil, List.foldl_cons, List.foldl_nil,
      Option.map_some', Option.getD_some, Nat.mul_zero, Nat.add_zero, Nat.mul_one,
      Nat.cast_ofNat]
    rw [List.getD_append _ _ _ _ hi,
      List.getD_append_right _ _ _ _ (by omega : L.length ≤ i + L.length)]
    simp only [Nat.add_sub_cancel, wadd32, zero_add,
      wrap32_eq_self (L.getD i 0) hLrange.1 hLrange.2]
  refine ⟨hmain, fun hfit => ?_, by simp [downmix]⟩
  rw [hmain, wrap32_eq_self _ hfit.1 hfit.2]

/-- Witness for C5 (amended), on the concrete two-channel block
`[5] ++ [3]`. -/
theorem c5_downmix_average_amended_witness :
    (downmix 2 ([5] ++ [3])).getD 0 0 = Int.tdiv (wrap32 ((5 : ℤ) + 3)) 2 ∧
    ((-2147483648 ≤ (5 : ℤ) + 3 ∧ (5 : ℤ) + 3 < 2147483648) →
      (downmix 2 ([5] ++ [3])).getD 0 0 = Int.tdiv ((5 : ℤ) + 3) 2) ∧
    downmix 1 [7, 8] = [7, 8] := by
  have h := c5_downmix_average_amended [5] [3] [7, 8] 0 (by decide) (by decide)
    (by decide) (by decide)
  simpa using h

/-- C8: a WireChunk processed while no codec header has been received yet
returns `Ok` and leaves the whole client state unchanged — nothing is
enqueued and `time_diff`, `delay` and `header` keep their values. -/
theorem c8_wirechunk_without_header_ignored (ce : ClientExt) (now : ℤ)
    (st : ClientState) (base : SnapBase) (ts : ℤ) (payload : List ℕ)
    (h : st.header = none) :
    processMessage ce now st { base := base, kind := .wireChunk ts payload } = some st := by
  simp only [processMessage, h]

/-- Witness for C8, at a concrete header-less state. -/
theorem c8_wirechunk_without_header_ignored_witness :
    processMessage sampleClientExt 5 sampleNoHeaderState
      { base := ⟨0, 0, 0, 0⟩, kind := .wireChunk 123 [9] } = some sampleNoHeaderState :=
  c8_wirechunk_without_header_ignored sampleClientExt 5 sampleNoHeaderState
    ⟨0, 0, 0, 0⟩ 123 [9] rfl

/-- Counterexample to C6 as stated: the `val` trajectory under all-zero
input is not non-increasing for all ticks.  From the admissible start state
`val = 0, velocity = 0` (so `val ≥ 0` and `velocity ≤ 0`), the trajectory is
`0, −1, 0, …`: once `val` falls below zero, the rising-edge branch fires
(`0 > val`) and `val` moves back up by `sqrt(0 − val)`.  The abstract square
root is evaluated only at `1`, where `f64::sqrt` returns exactly `1`. -/
theorem c6_gravity_decay_counterexample :
    (silentTraj sqrtOne 0 0 1).1 < (silentTraj sqrtOne 0 0 2).1 := by
  norm_num [silentTraj, gravityStep, GRAVITY, sqrtOne]

/-- C6 amended: from any start with `val ≥ 0` and `velocity ≤ 0`, under
all-zero input frames the `val` trajectory is non-increasing until it first
reaches a non-positive value — at which point the clamped byte output is
0 — and it gets there within `Nat.sqrt (2 ⌈val₀⌉) + 1` ticks, i.e. in
`O(sqrt(val_initial))` ticks.  (As stated the claim also asserts that the
whole trajectory is non-increasing, which the counterexample refutes: after
crossing zero the value can bounce back up.)  The result holds for every
square-root function `sq`, since the rising-edge branch is never taken
before the crossing. -/
theorem c6_gravity_decay_amended (sq : ℚ → ℚ) (v0 vel0 : ℚ)
    (h0 : 0 ≤ v0) (hvel : vel0 ≤ 0) :
    ∃ n ≤ Nat.sqrt (2 * (⌈v0⌉).toNat) + 1,
      (silentTraj sq v0 vel0 n).1 ≤ 0 ∧
      clampByte ((silentTraj sq v0 vel0 n).1) = 0 ∧
      ∀ k < n, (silentTraj sq v0 vel0 (k + 1)).1 ≤ (silentTraj sq v0 vel0 k).1 := by
  obtain ⟨n₀, hn₀, hP⟩ := silentTraj_reaches sq v0 vel0 h0 hvel
  have hex : ∃ n, (silentTraj sq v0 vel0 n).1 ≤ 0 := ⟨n₀, hP⟩
  refine ⟨Nat.find hex, le_trans (Nat.find_le hP) hn₀, Nat.find_spec hex,
    clampByte_nonpos _ (Nat.find_spec hex), ?_⟩
  intro k hk
  have hkpos : ∀ j, j ≤ k → 0 < (silentTraj sq v0 vel0 j).1 :=
    fun j hj => lt_of_not_le (Nat.find_min hex (by omega))
  have h0k : 0 ≤ (silentTraj sq v0 vel0 k).1 := le_of_lt (hkpos k le_rfl)
  have hvelk := (silentTraj_invariant sq v0 vel0 k
    fun j hj => le_of_lt (hkpos j (by omega))).1
  rw [silentTraj_succ sq v0 vel0 k h0k]
  have hk0 : (0 : ℚ) ≤ (k : ℚ) := Nat.cast_nonneg k
  dsimp only
  linarith

/-- Witness for C6 (amended), from the concrete start `val = 4,
velocity = 0`. -/
theorem c6_gravity_decay_amended_witness :
    ∃ n ≤ Nat.sqrt (2 * (⌈(4 : ℚ)⌉).toNat) + 1,
      (silentTraj (fun _ => 0) 4 0 n).1 ≤ 0 ∧
      clampByte ((silentTraj (fun _ => 0) 4 0 n).1) = 0 ∧
      ∀ k < n, (silentTraj (fun _ => 0) 4 0 (k + 1)).1 ≤ (silentTraj (fun _ => 0) 4 0 k).1 :=
  c6_gravity_decay_amended (fun _ => 0) 4 0 (by norm_num) le_rfl

/-- Counterexample to C7 as stated: after five consecutive failed connection
attempts the loop has not given up (on the five-failure trace it is still
running, about to sleep and reconnect), and on a six-failure trace the loop
does make a sixth attempt — that sixth failure is when it terminates, having
consumed 6 attempts. -/
theorem c7_retry_counterexample :
    runModel 0 (List.replicate 5 false) = none ∧
    runModel 0 (List.replicate 6 false) = some 6 := by
  constructor <;> rfl

/-- C7 amended: the connection loop gives up after 6 consecutive failed
attempts — the counter increments on each failure and the task returns an
error as soon as the counter exceeds `NUM_RETRIES = 5`, so a sixth attempt
is made after five failures but never a seventh after six — and a
successful connection resets the consecutive-failure count to 0 (second
conjunct: one successful attempt followed by anything behaves like a fresh
loop). -/
theorem c7_retry_amended (rest : List Bool) (retries : ℕ) (rest2 : List Bool) :
    runModel 0 (List.replicate 6 false ++ rest) = some 6 ∧
    runModel retries (true :: rest2) = Option.map (· + 1) (runModel 0 rest2) := by
  constructor
  · show runModel 0 (false :: false :: false :: false :: false :: false :: rest) = some 6
    rfl
  · show (if NUM_RETRIES < 0 then some 1
      else match runModel 0 rest2 with
        | some n => some (n + 1)
        | none => none) = Option.map (· + 1) (runModel 0 rest2)
    cases h : runModel 0 rest2 <;> simp [NUM_RETRIES, h]

end Lights
